import Mathlib

/-!
Verification of the himawari_api catalog/query layer (`himawari_api/io.py`).

The development shallow-embeds the pure core of `io.py`:
* the alias tables and normalization checks (`_satellites`, `_sectors`,
  `_channels`, `_check_satellite`, `_check_sector`, `_check_channel`);
* the filename-metadata logic (`_separate_sector_observation_number` and the
  post-parse portion of `_get_info_from_filename`);
* the per-file time/channel/scene filter (`_filter_file`);
* the interval-regularity check (`_check_interval_regularity`);
* the timestep-search routines (`find_closest_start_time`,
  `find_previous_files`), with the external storage listing modelled as an
  explicit list of file records (the spec treats the cloud filesystem as an
  external collaborator exposing only a glob listing);
* the connection-mode adapter (`_set_connection_type`,
  `_switch_to_https_fpath`, `_add_nc_bytes`, `_check_connection_type`) and
  `get_fname_glob_pattern`.

Times are modelled as integers (seconds); `datetime.timedelta(minutes=2,
seconds=30)` is 150, 10 minutes is 600, 30 seconds is 30.  Fallible Python
code (raising `ValueError` / `NotImplementedError` / unbound-local errors)
is modelled with `Except` / `Option`.
-/

namespace Himawari

/-! ### String utilities (substring test, upper-casing, digit parsing) -/

/-- Holds when `needle` is an initial segment of `hay`
(Python slice comparison used to realise the `in` substring test). -/
def leadsWith : List Char → List Char → Bool
  | [], _ => true
  | _ :: _, [] => false
  | a :: as, b :: bs => a == b && leadsWith as bs

/-- Python's `needle in hay` substring test on character lists. -/
def hasSub : List Char → List Char → Bool
  | [], needle => needle.isEmpty
  | c :: rest, needle => leadsWith needle (c :: rest) || hasSub rest needle

/-- Substring test on `String`s: Python `needle in hay`. -/
def strHasSub (hay needle : String) : Bool :=
  hasSub hay.data needle.data

/-- Python `str.upper()` (ASCII is all that the tables use). -/
def strUpper (s : String) : String :=
  ⟨s.data.map Char.toUpper⟩

/-- Value of a decimal digit character, `none` on a non-digit. -/
def digitVal (c : Char) : Option Nat :=
  if c.isDigit then some (c.toNat - 48) else none

/-- Python `int(s)` on an all-digit string: `none` models the `ValueError`
raised on an empty or non-numeric string. -/
def parseNat (cs : List Char) : Option Nat :=
  cs.foldl
    (fun acc c =>
      match acc, digitVal c with
      | some n, some d => some (n * 10 + d)
      | _, _ => none)
    (if cs.isEmpty then none else some 0)

/-- Python `os.path.join(base, p)` for the two-argument uses in `io.py`:
an absolute second component replaces the first. -/
def pathJoin (base p : String) : String :=
  if p.data.head? = some '/' then p
  else if base.data.getLast? = some '/' then base ++ p
  else base ++ "/" ++ p

/-- Characters after the `n`-th `'/'`: Python `s.split("/", n)[n]`.
`none` models the `IndexError` when fewer than `n` slashes are present. -/
def dropSeg : Nat → List Char → Option (List Char)
  | 0, cs => some cs
  | _ + 1, [] => none
  | n + 1, c :: cs => if c = '/' then dropSeg n cs else dropSeg (n + 1) cs

/-- Consecutive differences of a list (`np.diff`). -/
def diffs : List Int → List Int
  | a :: b :: rest => (b - a) :: diffs (b :: rest)
  | _ => []

/-! ### Alias tables (`_satellites`, `_sectors`, `_channels`) -/

/-- Table `_satellites` from `io.py`, verbatim (note the `"H08"` entry in the
`himawari-9` row). -/
def satellitesTable : List (String × List String) :=
  [("himawari-8", ["H8", "H08", "HIMAWARI-8", "HIMAWARI8"]),
   ("himawari-9", ["H9", "H08", "HIMAWARI-9", "HIMAWARI9"])]

/-- Table `_sectors` from `io.py`, verbatim. -/
def sectorsTable : List (String × List String) :=
  [("FLDK", ["FLDK", "FULL", "FULLDISK", "FULL DISK", "F"]),
   ("Japan", ["JAPAN", "JAPAN_AREA", "JAPAN AREA", "J"]),
   ("Target", ["TARGET", "TARGET_AREA", "TARGET AREA", "T"]),
   ("Landmark", ["LANDMARK", "M", "MESOSCALE"])]

/-- Table `_channels` from `io.py`, verbatim (note the `"B16"` entry leading the
`B15` row). -/
def channelsTable : List (String × List String) :=
  [("B01", ["B01", "C01", "1", "01", "0.47", "0.46", "BLUE", "B"]),
   ("B02", ["B02", "C02", "2", "02", "0.51", "RED", "R"]),
   ("B03", ["B03", "C03", "3", "03", "0.64", "GREEN", "G"]),
   ("B04", ["B04", "C04", "4", "04", "0.86", "CIRRUS"]),
   ("B05", ["B05", "C05", "5", "05", "1.6", "SNOW/ICE"]),
   ("B06", ["B06", "C06", "6", "06", "2.3", "CLOUD PARTICLE SIZE", "CPS"]),
   ("B07", ["B07", "C07", "7", "07", "3.9", "IR SHORTWAVE WINDOW", "IR SHORTWAVE"]),
   ("B08", ["B08", "C08", "8", "08", "6.2", "UPPER-LEVEL TROPOSPHERIC WATER VAPOUR", "UPPER-LEVEL WATER VAPOUR"]),
   ("B09", ["B09", "C09", "9", "09", "6.9", "7.0", "MID-LEVEL TROPOSPHERIC WATER VAPOUR", "MID-LEVEL WATER VAPOUR"]),
   ("B10", ["B10", "C10", "10", "10", "7.3", "LOWER-LEVEL TROPOSPHERIC WATER VAPOUR", "LOWER-LEVEL WATER VAPOUR"]),
   ("B11", ["B11", "C11", "11", "11", "8.6", "CLOUD-TOP PHASE", "CTP"]),
   ("B12", ["B12", "C12", "12", "12", "9.6", "OZONE"]),
   ("B13", ["B13", "C13", "13", "10.4", "CLEAN IR LONGWAVE WINDOW", "CLEAN IR"]),
   ("B14", ["B14", "C14", "14", "11.2", "IR LONGWAVE WINDOW", "IR LONGWAVE"]),
   ("B15", ["B16", "C15", "15", "12.3", "12.4", "DIRTY LONGWAVE WINDOW", "DIRTY IR"]),
   ("B16", ["B16", "C16", "16", "13.3", "CO2 IR LONGWAVE", "CO2", "CO2 IR"])]

/-- First table key whose alias list contains `s` (the `for key,
possible_values in table.items()` loops of the `_check_*` helpers). -/
def lookupAlias (table : List (String × List String)) (s : String) : Option String :=
  match table with
  | [] => none
  | (k, vs) :: rest => if vs.contains s then some k else lookupAlias rest s

/-- Function `_check_satellite`: upper-case, then first alias-table hit; error lists
the valid keys. -/
def check_satellite (satellite : String) : Except String String :=
  match lookupAlias satellitesTable (strUpper satellite) with
  | some k => .ok k
  | none => .error "Available satellite: [himawari-8, himawari-9]"

/-- Function `_check_sector` with `product=None` (the alias-resolution part). -/
def check_sector (sector : String) : Except String String :=
  match lookupAlias sectorsTable (strUpper sector) with
  | some k => .ok k
  | none => .error "Available sectors: [FLDK, Japan, Target, Landmark]"

/-- Function `_check_channel`: an already-canonical identifier short-circuits the
alias search. -/
def check_channel (channel : String) : Except String String :=
  let cu := strUpper channel
  if (channelsTable.map Prod.fst).contains cu then .ok cu
  else
    match lookupAlias channelsTable cu with
    | some k => .ok k
    | none => .error "Available channels: [B01..B16]"

/-! ### `get_fname_glob_pattern`

```python
def get_fname_glob_pattern(product_level):
    if product_level == "L1b":
        fname_pattern = "*.bz2*"
    else: # L2
        fname_pattern == "*.nc*"
    return fname_pattern
```

In the `else` branch the source compares (`==`) instead of assigning, so
`fname_pattern` is never bound and the `return` raises
`UnboundLocalError`; `none` models that failure. -/
def get_fname_glob_pattern (product_level : String) : Option String :=
  if product_level = "L1b" then some "*.bz2*"
  else none

/-! ### `_check_interval_regularity` -/

/-- Error taxonomy for the timestep-search routines (each case corresponds
to one of the distinct `ValueError` messages raised in `io.py`). -/
inductive QueryErr
  /-- Message "No data available in previous and next ... minutes around ...". -/
  | noDataAround
  /-- Message "start_time=... is not an actual start_time ...". -/
  | notActualStart
  /-- Message "No data available between ... and ...". -/
  | noDataBetween
  /-- Message "No N timesteps available between ... and ...". -/
  | insufficientTimesteps
  /-- Message "The time interval is not regular!". -/
  | irregularInterval
deriving DecidableEq, Repr

/-- Function `_check_interval_regularity`: sort, take `np.diff`, require a single
unique difference (`np.unique(...)` of length one). -/
def check_interval_regularity (l : List Int) : Except QueryErr Unit :=
  if l.length < 2 then .ok ()
  else
    let s := List.insertionSort (· ≤ ·) l
    if (diffs s).dedup.length = 1 then .ok ()
    else .error .irregularInterval

/-! ### Filename metadata (`_separate_sector_observation_number` and the
post-parse portion of `_get_info_from_filename`)

The trollsift parse templates live in `himawari_api/listing.py`, which only
feeds `_get_info_from_filename` a field dictionary; the logic verified here
starts from that parsed dictionary (`ParsedInfo`). -/

/-- Python value of the `scene_abbr` field: the source stores either a
plain string (`"F"`, `"R3"`, `"R4"`, `"R5"`) or a list (`["R1", "R2"]`). -/
inductive SceneAbbr
  | str (s : String)
  | listOf (l : List String)
deriving DecidableEq, Repr

/-- Triple returned by `_separate_sector_observation_number`. -/
structure SepInfo where
  sector : String
  sceneAbbr : SceneAbbr
  obsNum : Option Int
deriving DecidableEq, Repr

/-- Function `_separate_sector_observation_number` from `io.py`:

```python
if "FLDK" in s:   sector, scene_abbr, observation_number = "FLDK", "F", None
elif "JP" in s:   sector, scene_abbr = "JP", ["R1","R2"]; observation_number = int(s[-2:])
elif "R" in s:    region_index = int(s[1])
                  3 -> ("Target", "R3"); 4 -> ("Landmark", "R4"); else -> ("Landmark", "R5")
                  observation_number = int(s[2:])
else: raise NotImplementedError
```

The `.error` cases model the `ValueError` of a failed `int(...)` / index
access and the final `NotImplementedError`. -/
def separate_sector_observation_number (s : String) : Except String SepInfo :=
  if strHasSub s "FLDK" then
    .ok ⟨"FLDK", .str "F", none⟩
  else if strHasSub s "JP" then
    match parseNat (s.data.drop (s.data.length - 2)) with
    | some n => .ok ⟨"JP", .listOf ["R1", "R2"], some (n : Int)⟩
    | none => .error "ValueError: invalid int"
  else if strHasSub s "R" then
    match s.data.drop 1 with
    | [] => .error "IndexError"
    | c :: rest =>
      match digitVal c, parseNat rest with
      | some regionIndex, some n =>
        if regionIndex = 3 then .ok ⟨"Target", .str "R3", some (n : Int)⟩
        else if regionIndex = 4 then .ok ⟨"Landmark", .str "R4", some (n : Int)⟩
        else .ok ⟨"Landmark", .str "R5", some (n : Int)⟩
      | _, _ => .error "ValueError: invalid int"
  else
    .error "NotImplementedError: Adapt the file patterns."

/-- Field dictionary handed to the post-parse logic of
`_get_info_from_filename` (trollsift output plus the inferred product and
product level), restricted to the fields that logic reads.  Times already
carry the `microsecond=0` truncation. -/
structure ParsedInfo where
  startTime : Int
  endTime : Option Int
  sectorObservationNumber : Option String
  platformShortname : Option String
  platformFullname : Option String
  product : String
  productLevel : String
deriving DecidableEq, Repr

/-- File-record field map produced by `_get_info_from_filename`. -/
structure InfoOut where
  satellite : String
  product : String
  sector : Option String
  sceneAbbr : Option SceneAbbr
  startTime : Int
  endTime : Option Int
deriving DecidableEq, Repr

/-- Post-parse portion of `_get_info_from_filename` (lines 816-902 of
`io.py`): sector/observation-number decomposition with its time shifts, the
10-minute `end_time` default, the `FLDK` sector default, L2 product
homogenization and satellite derivation.  The two sequential `if`s guarding
the 2m30s and 30s arithmetic have mutually exclusive guards and are embedded
as a two-way branch. -/
def get_info_from_parsed (p : ParsedInfo) : Except String InfoOut := do
  -- sector_observation_number handling
  let (sector?, sceneAbbr?, startT, endT?) ←
    match p.sectorObservationNumber with
    | none =>
      pure ((none : Option String), (none : Option SceneAbbr), p.startTime, p.endTime)
    | some tok => do
      let si ←
        match separate_sector_observation_number tok with
        | .ok si => pure si
        | .error e => throw e
      if si.sector = "Japan" ∨ (si.sector = "Target" ∧ si.sceneAbbr = .str "R3") then
        match si.obsNum with
        | some n =>
          let st := p.startTime + (n - 1) * 150
          pure (some si.sector, some si.sceneAbbr, st, some (st + n * 150))
        | none => throw "TypeError: observation_number is None"
      else if si.sector = "Landmark" ∧ (si.sceneAbbr = .str "R4" ∨ si.sceneAbbr = .str "R5") then
        match si.obsNum with
        | some n =>
          let st := p.startTime + (n - 1) * 30
          pure (some si.sector, some si.sceneAbbr, st, some (st + n * 30))
        | none => throw "TypeError: observation_number is None"
      else
        pure (some si.sector, some si.sceneAbbr, p.startTime, p.endTime)
  -- end_time default: start_time + 10 minutes when absent
  let endT : Int :=
    match endT? with
    | none => startT + 600
    | some e => e
  -- sector default: FLDK when absent (L2 products)
  let sector : String :=
    match sector? with
    | none => "FLDK"
    | some s => s
  -- L2 product homogenization
  let product ←
    if p.productLevel = "L2" then
      if p.product = "CLOUD_MASK" ∨ p.product = "CMSK" then pure "CMSK"
      else if p.product = "CPHS" ∨ p.product = "CLOUD_PHASE" then pure "CPHS"
      else if p.product = "CHGT" ∨ p.product = "CLOUD_HEIGHT" then pure "CHGT"
      else if p.product = "RRQPE" ∨ p.product = "HYDRO_RAIN_RATE" then pure "RRQPE"
      else throw "NotImplementedError"
    else pure p.product
  -- satellite derivation from the platform fields
  let satellite ←
    match p.platformShortname with
    | some s =>
      if strUpper s = "H08" then pure "HIMAWARI-8"
      else if strUpper s = "H09" then pure "HIMAWARI-9"
      else throw "ValueError: satellite processing not yet implemented"
    | none =>
      match p.platformFullname with
      | some s =>
        if strUpper s = "HIMAWARI8" then pure "HIMAWARI-8"
        else if strUpper s = "HIMAWARI9" then pure "HIMAWARI-9"
        else throw "ValueError: satellite processing not yet implemented"
      | none => throw "ValueError: satellite name not derivable from file name"
  pure ⟨satellite, product, some sector, sceneAbbr?, startT, some endT⟩

/-! ### Per-file filtering (`_filter_file`) and grouped keys

For the search routines the external storage listing is modelled as an
explicit list of `FileRec`s: the acquisition window and optional
channel / scene fields that `_filter_file` reads off the parsed filename
(spec §1 treats the cloud filesystem as an external collaborator exposing
only a glob listing). -/

/-- Metadata of one discovered file, as read by `_filter_file`. -/
structure FileRec where
  startTime : Int
  endTime : Int
  channel : Option String
  sceneAbbr : Option SceneAbbr
deriving DecidableEq, Repr

/-- Function `_filter_file`: `true` when the file is kept.  Clause order
follows the source: channels, scene_abbr, start_time, end_time.  A
list-valued `scene_abbr` (Japan files) never equals a string, so Python's
`file_scene_abbr not in scene_abbr` drops it whenever the filter is set. -/
def filter_file (channels sceneFilter : Option (List String))
    (startQ endQ : Option Int) (f : FileRec) : Bool :=
  (match channels, f.channel with
   | some cs, some c => cs.contains c
   | _, _ => true) &&
  (match sceneFilter, f.sceneAbbr with
   | some sl, some (.str s) => sl.contains s
   | some _, some (.listOf _) => false
   | _, _ => true) &&
  (match startQ with
   | some s => !decide (f.endTime < s)
   | none => true) &&
  (match endQ with
   | some e => !decide (f.startTime > e)
   | none => true)

/-- Files surviving the pure time filter of `_filter_files` (no channel or
scene filter). -/
def timeFilteredFiles (files : List FileRec) (s e : Int) : List FileRec :=
  files.filter (filter_file none none (some s) (some e))

/-- Distinct `start_time` keys of the files kept for the window `[s, e]`,
ascending: the keys of `find_files(..., group_by_key="start_time")`
(`np.unique` in `_group_fpaths_by_key`) after the `sorted(...)` applied by
the callers. -/
def sortedKeys (files : List FileRec) (s e : Int) : List Int :=
  List.insertionSort (· ≤ ·) ((timeFilteredFiles files s e).map FileRec.startTime).dedup

/-! ### `find_closest_start_time` and `find_previous_files` -/

/-- Function `_get_acquisition_max_timedelta` (sector cadence, seconds). -/
def get_acquisition_max_timedelta (sector : String) : Except String Int :=
  if sector = "Target" then .ok 150
  else if sector = "Japan" then .ok 150
  else if sector = "FLDK" then .ok 600
  else if sector = "Landmark" then .ok 30
  else .error "Unknown sector."

/-- Running `np.argmin(np.abs(np.array(list) - t))` over `best :: l` and
returning the value at that index: the first element attaining the minimal
absolute distance to `t`. -/
def argminAbsAux (t best : Int) : List Int → Int
  | [] => best
  | x :: xs => if |x - t| < |best - t| then argminAbsAux t x xs else argminAbsAux t best xs

/-- Function `find_closest_start_time`: group the files discovered in
`[time - dt, time + dt]` by `start_time`, sort the keys, and take the first
key minimizing the absolute distance to `time` (`np.argmin`); error when no
key was found. -/
def find_closest_start_time (files : List FileRec) (time dt : Int) : Except QueryErr Int :=
  match sortedKeys files (time - dt) (time + dt) with
  | [] => .error .noDataAround
  | k :: ks => .ok (argminAbsAux time k ks)

/-- Backward search-window start of `find_previous_files`:
`closest_time - timedelta * (N+1)`. -/
def prevWindowStart (closest dt : Int) (N : Nat) : Int :=
  closest - dt * (N + 1)

/-- Sorted candidate timesteps of `find_previous_files` with
`include_start_time=False`: the keys discovered in the backward window with
the resolved start removed.  Python's `list.remove` raises when the element
is absent; in every reachable call the resolved start is one of the keys
(it is a discovered `start_time` and the window ends at it), where
`List.erase` coincides. -/
def prevCandidates (files : List FileRec) (closest dt : Int) (N : Nat) : List Int :=
  (sortedKeys files (prevWindowStart closest dt N) closest).erase closest

/-- Function `find_previous_files` with `include_start_time=False`, returning
the selected timesteps (the keys of the returned `fpath_dict`).  Follows the
source: resolve `start_time` through `find_closest_start_time`, require
exact equality under `check_consistency`, search `[closest - dt*(N+1),
closest]`, drop the resolved start, check availability, keep the last `N`
keys, and re-check interval regularity with the resolved start appended. -/
def find_previous_times (files : List FileRec) (startT dt : Int) (N : Nat)
    (checkConsistency : Bool) : Except QueryErr (List Int) :=
  match find_closest_start_time files startT dt with
  | .error e => .error e
  | .ok closest =>
    if checkConsistency && !decide (closest = startT) then .error .notActualStart
    else
      let l1 := prevCandidates files closest dt N
      if l1 = [] then .error .noDataBetween
      else if l1.length < N then .error .insufficientTimesteps
      else
        let sel := l1.drop (l1.length - N)
        if checkConsistency then
          match check_interval_regularity (sel ++ [closest]) with
          | .error e => .error e
          | .ok _ => .ok sel
        else .ok sel

/-! ### Connection-mode adapter (`_set_connection_type` and helpers) -/

/-- Function `infer_satellite_from_path`: substring tests against the
himawari-8 patterns first, then the himawari-9 patterns. -/
def infer_satellite_from_path (path : String) : Except String String :=
  if ["himawari8", "himawari-8", "H8", "H08"].any (fun pat => strHasSub path pat) then
    .ok "himawari-8"
  else if ["himawari9", "himawari-9", "H9", "H09"].any (fun pat => strHasSub path pat) then
    .ok "himawari-9"
  else .error "Unexpected HIMAWARI file path."

/-- Python `satellite.replace("-", "")`: removing every dash. -/
def stripDash (s : String) : String :=
  ⟨s.data.filter (fun c => !(c == '-'))⟩

/-- Function `_switch_to_https_fpath` for protocol `"s3"`: infer the
satellite from the path, build the public endpoint, and join it with the
path suffix after the third `/` (Python `fpath.split("/", 3)[3]`). -/
def switch_to_https_fpath (fpath : String) : Except String String := do
  let satellite ←
    match infer_satellite_from_path fpath with
    | .ok s => pure s
    | .error e => throw e
  let baseUrl := "https://noaa-" ++ stripDash satellite ++ ".s3.amazonaws.com"
  match dropSeg 3 fpath.data with
  | none => throw "IndexError"
  | some rest => pure (pathJoin baseUrl (String.mk rest))

/-- Function `_switch_to_https_fpaths` (list version). -/
def switch_to_https_fpaths (fpaths : List String) : Except String (List String) :=
  fpaths.mapM switch_to_https_fpath

/-- Function `_add_nc_bytes`: append the byte-range-access marker. -/
def add_nc_bytes (fpaths : List String) : List String :=
  fpaths.map (· ++ "#mode=bytes")

/-- Function `_check_connection_type` (without the `isinstance` type check):
no protocol or a local protocol forces the connection type to `none`; for
`"s3"` the default is `"bucket"` and only the three supported modes pass. -/
def check_connection_type (connectionType : Option String) (protocol : Option String) :
    Except String (Option String) :=
  let ct1 := if protocol = none then none else connectionType
  let ct2 := if protocol = some "file" ∨ protocol = some "local" then none else ct1
  if protocol = some "s3" then
    let ct3 :=
      match ct2 with
      | none => "bucket"
      | some c => c
    if ct3 = "bucket" ∨ ct3 = "https" ∨ ct3 = "nc_bytes" then .ok (some ct3)
    else .error "Valid connection_type are [bucket, https, nc_bytes]."
  else .ok ct2

/-- Function `_set_connection_type` for a list of paths: identity for no
protocol, the local protocol, or `"bucket"`; HTTPS rewrite for `"https"`,
plus the byte-range marker for `"nc_bytes"`; any other mode is a
`NotImplementedError`. -/
def set_connection_type (fpaths : List String) (protocol : Option String)
    (connectionType : Option String) : Except String (List String) :=
  match protocol with
  | none => .ok fpaths
  | some p =>
    if p = "file" then .ok fpaths
    else
      -- here protocol s3
      if connectionType = some "bucket" then .ok fpaths
      else if connectionType = some "https" ∨ connectionType = some "nc_bytes" then do
        let l ← switch_to_https_fpaths fpaths
        if connectionType = some "nc_bytes" then pure (add_nc_bytes l)
        else pure l
      else .error "NotImplementedError: bucket, https, nc_bytes are the only connection_type available."

/-! ## Supporting lemmas -/

/-- Length of the consecutive-difference list. -/
theorem diffs_length (l : List Int) : (diffs l).length = l.length - 1 := by
  match l with
  | [] => rfl
  | [_] => rfl
  | a :: b :: rest =>
    have ih := diffs_length (b :: rest)
    simp [diffs] at ih ⊢
    omega

/-- A list deduplicates to a single element iff it is nonempty with all
elements equal (the `len(np.unique(x)) == 1` test). -/
theorem dedup_length_one_iff (l : List Int) :
    l.dedup.length = 1 ↔ l ≠ [] ∧ ∀ a ∈ l, ∀ b ∈ l, a = b := by
  constructor
  · intro h
    obtain ⟨c, hc⟩ := List.length_eq_one.mp h
    constructor
    · intro hnil
      rw [hnil] at hc
      simp [List.dedup] at hc
    · intro a ha b hb
      have ha' : a ∈ l.dedup := List.mem_dedup.mpr ha
      have hb' : b ∈ l.dedup := List.mem_dedup.mpr hb
      rw [hc] at ha' hb'
      simp at ha' hb'
      rw [ha', hb']
  · rintro ⟨hne, hall⟩
    obtain ⟨x, hx⟩ := List.exists_mem_of_ne_nil l hne
    have hnd := List.nodup_dedup l
    have hmem : ∀ y ∈ l.dedup, y = x := fun y hy => hall y (List.mem_dedup.mp hy) x hx
    have hxmem : x ∈ l.dedup := List.mem_dedup.mpr hx
    match hdl : l.dedup with
    | [] => rw [hdl] at hxmem; simp at hxmem
    | [_] => rfl
    | y :: z :: zs =>
      rw [hdl] at hnd hmem
      have hy : y = x := hmem y (by simp)
      have hz : z = x := hmem z (by simp)
      rw [List.nodup_cons] at hnd
      exact absurd (by simp [hy, hz]) hnd.1

/-- The running argmin is one of the candidates. -/
theorem argminAbsAux_mem (t b : Int) (l : List Int) : argminAbsAux t b l ∈ b :: l := by
  induction l generalizing b with
  | nil => simp [argminAbsAux]
  | cons x xs ih =>
    simp only [argminAbsAux]
    by_cases h : |x - t| < |b - t|
    · rw [if_pos h]
      exact List.mem_cons.mpr (Or.inr (ih x))
    · rw [if_neg h]
      rcases List.mem_cons.mp (ih b) with hb | hxs
      · exact List.mem_cons.mpr (Or.inl hb)
      · exact List.mem_cons.mpr (Or.inr (List.mem_cons.mpr (Or.inr hxs)))

/-- The running argmin minimizes the absolute distance to `t`. -/
theorem argminAbsAux_le (t b : Int) (l : List Int) :
    ∀ x ∈ b :: l, |argminAbsAux t b l - t| ≤ |x - t| := by
  induction l generalizing b with
  | nil =>
    intro x hx
    simp at hx
    subst hx
    simp [argminAbsAux]
  | cons y ys ih =>
    intro x hx
    simp only [argminAbsAux]
    by_cases h : |y - t| < |b - t|
    · rw [if_pos h]
      rcases List.mem_cons.mp hx with hb | hx'
      · subst hb
        exact le_trans (ih y y (List.mem_cons.mpr (Or.inl rfl))) (le_of_lt h)
      · exact ih y x hx'
    · rw [if_neg h]
      rcases List.mem_cons.mp hx with hb | hx'
      · subst hb
        exact ih x x (List.mem_cons.mpr (Or.inl rfl))
      · rcases List.mem_cons.mp hx' with hy | hys
        · subst hy
          exact le_trans (ih b b (List.mem_cons.mpr (Or.inl rfl))) (le_of_not_lt h)
        · exact ih b x (List.mem_cons.mpr (Or.inr hys))

/-- The running argmin either is the running best or strictly improves on
it (`np.argmin` keeps the first occurrence of the minimum). -/
theorem argminAbsAux_eq_or_lt (t b : Int) (l : List Int) :
    argminAbsAux t b l = b ∨ |argminAbsAux t b l - t| < |b - t| := by
  induction l generalizing b with
  | nil => exact Or.inl rfl
  | cons y ys ih =>
    simp only [argminAbsAux]
    by_cases h : |y - t| < |b - t|
    · rw [if_pos h]
      rcases ih y with heq | hlt
      · rw [heq]; exact Or.inr h
      · exact Or.inr (lt_trans hlt h)
    · rw [if_neg h]
      exact ih b

/-- On an ascending candidate list the argmin is the least candidate among
those attaining the minimal distance (first-occurrence tie break). -/
theorem argminAbsAux_first (t b : Int) (l : List Int)
    (hs : List.Sorted (· ≤ ·) (b :: l)) :
    ∀ x ∈ b :: l, |x - t| = |argminAbsAux t b l - t| → argminAbsAux t b l ≤ x := by
  induction l generalizing b with
  | nil =>
    intro x hx _
    simp at hx
    subst hx
    simp [argminAbsAux]
  | cons y ys ih =>
    intro x hx heq
    obtain ⟨hball, htail⟩ := List.pairwise_cons.mp hs
    obtain ⟨hyall, hys⟩ := List.pairwise_cons.mp htail
    simp only [argminAbsAux] at heq ⊢
    by_cases h : |y - t| < |b - t|
    · rw [if_pos h] at heq ⊢
      rcases List.mem_cons.mp hx with hb | hx'
      · subst hb
        have hle : |argminAbsAux t y ys - t| ≤ |y - t| :=
          argminAbsAux_le t y ys y (List.mem_cons.mpr (Or.inl rfl))
        rw [← heq] at hle
        exact absurd (lt_of_le_of_lt hle h) (lt_irrefl _)
      · exact ih y htail x hx' heq
    · rw [if_neg h] at heq ⊢
      have hsb : List.Sorted (· ≤ ·) (b :: ys) :=
        List.pairwise_cons.mpr ⟨fun z hz => hball z (List.mem_cons.mpr (Or.inr hz)), hys⟩
      rcases List.mem_cons.mp hx with hb | hx'
      · subst hb
        rcases argminAbsAux_eq_or_lt t x ys with heqb | hlt
        · rw [heqb]
        · rw [← heq] at hlt
          exact absurd hlt (lt_irrefl _)
      · rcases List.mem_cons.mp hx' with hy | hys'
        · subst hy
          rcases argminAbsAux_eq_or_lt t b ys with heqb | hlt
          · rw [heqb]
            exact hball x (List.mem_cons.mpr (Or.inl rfl))
          · have hby : |b - t| ≤ |x - t| := le_of_not_lt h
            rw [heq] at hby
            exact absurd (lt_of_lt_of_le hlt hby) (lt_irrefl _)
        · exact ih b hsb x (List.mem_cons.mpr (Or.inr hys')) heq

/-- The grouped keys are ascending. -/
theorem sortedKeys_sorted (files : List FileRec) (s e : Int) :
    List.Sorted (· ≤ ·) (sortedKeys files s e) :=
  List.sorted_insertionSort _ _

/-! ## Claims -/

/-- C1: for an L1b filename with a combined sector+observation-index token,
the claim says a "JP" token with index n yields sector Japan with the
(n-1)×2m30s shift and a 2m30s acquisition length, and "R3"/"R4"/"R5" tokens
the analogous arithmetic.  The code instead labels "JP" tokens with sector
"JP" (never "Japan", so the shift guard is dead for them and the 10-minute
default fills `end_time`), and for Target/Landmark sets
`end_time = shifted_start + n × cadence` rather than `+ cadence`:
evaluated here at tokens "JP02" and "R302" with filename start time 1000. -/
theorem c1_sector_observation_token_eval :
    get_info_from_parsed ⟨1000, none, some "JP02", some "h08", none, "Rad", "L1b"⟩ =
      .ok ⟨"HIMAWARI-8", "Rad", some "JP", some (.listOf ["R1", "R2"]), 1000, some 1600⟩ ∧
    get_info_from_parsed ⟨1000, none, some "R302", some "h08", none, "Rad", "L1b"⟩ =
      .ok ⟨"HIMAWARI-8", "Rad", some "Target", some (.str "R3"), 1150, some 1450⟩ ∧
    ("JP" : String) ≠ "Japan" ∧ ((1600 : Int) ≠ 1000 + 150) ∧ ((1450 : Int) ≠ 1150 + 150) :=
  ⟨rfl, rfl, by decide, by decide, by decide⟩

/-- C5: the claim says every alias listed under a canonical key normalizes
to that key.  The `himawari-9` row lists "H08" (an evident typo for "H09"),
which the first-match loop resolves to `himawari-8`; the `B15` row lists
"B16" (an evident typo for "B15"), which the canonical-key short-circuit
resolves to `B16`. -/
theorem c5_alias_tables_eval :
    check_satellite "H08" = .ok "himawari-8" ∧
    satellitesTable.lookup "himawari-9" = some ["H9", "H08", "HIMAWARI-9", "HIMAWARI9"] ∧
    ("himawari-8" : String) ≠ "himawari-9" ∧
    check_channel "B16" = .ok "B16" ∧
    channelsTable.lookup "B15" =
      some ["B16", "C15", "15", "12.3", "12.4", "DIRTY LONGWAVE WINDOW", "DIRTY IR"] ∧
    ("B16" : String) ≠ "B15" :=
  ⟨rfl, rfl, by decide, rfl, rfl, by decide⟩

/-- C6: the claim says the glob-pattern function returns "*.bz2*" for L1b
and "*.nc*" for L2.  The L1b branch does; the L2 branch compares
(`fname_pattern == "*.nc*"`) instead of assigning, so the function raises
`UnboundLocalError` there (modelled as `none`). -/
theorem c6_glob_pattern_eval :
    get_fname_glob_pattern "L1b" = some "*.bz2*" ∧
    get_fname_glob_pattern "L2" = none :=
  ⟨rfl, rfl⟩

/-- C7: the claim says `end_time` is always defined and is either parsed
from the filename or defaults to `start_time` plus the sector's fixed
cadence.  For a Target file with token "R302" and no end time in the name
(start time 0), the code produces `end_time = 450` — neither parsed nor
the record's `start_time + 150` Target cadence. -/
theorem c7_end_time_cadence_eval :
    get_info_from_parsed ⟨0, none, some "R302", some "H08", none, "Rad", "L1b"⟩ =
      .ok ⟨"HIMAWARI-8", "Rad", some "Target", some (.str "R3"), 150, some 450⟩ ∧
    get_acquisition_max_timedelta "Target" = .ok 150 ∧
    ((450 : Int) ≠ 150 + 150) :=
  ⟨rfl, rfl, by decide⟩

/-- C2: for a query with optional start/end bounds and no channel or scene
filter, `_filter_file` keeps a file iff its acquisition window does not end
strictly before the query start and does not begin strictly after the query
end; instantiated at the five windows of the claim (minutes since
midnight: the file spans [10:00, 10:10]). -/
theorem c2_time_filter_overlap :
    (∀ (f : FileRec) (qs qe : Option Int),
      filter_file none none qs qe f = true ↔
        ¬ ((∃ s, qs = some s ∧ f.endTime < s) ∨ (∃ e, qe = some e ∧ e < f.startTime))) ∧
    filter_file none none (some 605) (some 606) ⟨600, 610, none, none⟩ = true ∧
    filter_file none none (some 595) (some 601) ⟨600, 610, none, none⟩ = true ∧
    filter_file none none (some 609) (some 620) ⟨600, 610, none, none⟩ = true ∧
    filter_file none none (some 611) (some 620) ⟨600, 610, none, none⟩ = false ∧
    filter_file none none (some 540) (some 599) ⟨600, 610, none, none⟩ = false := by
  refine ⟨?_, by decide, by decide, by decide, by decide, by decide⟩
  intro f qs qe
  cases qs <;> cases qe <;> simp [filter_file] <;> omega

/-- C8: the regularity check raises the irregular-interval error iff the
input has at least two timestamps whose sorted consecutive differences are
not all equal; the 10-minute-spaced example passes and the irregular one
fails (timestamps in minutes). -/
theorem c8_interval_regularity :
    (∀ l : List Int,
      check_interval_regularity l = .error .irregularInterval ↔
        2 ≤ l.length ∧
          ¬ ∀ d1 ∈ diffs (List.insertionSort (· ≤ ·) l),
              ∀ d2 ∈ diffs (List.insertionSort (· ≤ ·) l), d1 = d2) ∧
    check_interval_regularity [600, 610, 620] = .ok () ∧
    check_interval_regularity [600, 610, 625] = .error .irregularInterval := by
  refine ⟨?_, rfl, rfl⟩
  intro l
  by_cases hlen : l.length < 2
  · simp only [check_interval_regularity, if_pos hlen]
    constructor
    · intro h
      exact absurd h (by simp)
    · rintro ⟨h2, -⟩
      omega
  · have hlen2 : 2 ≤ l.length := by omega
    have hne : diffs (List.insertionSort (· ≤ ·) l) ≠ [] := by
      intro h
      have hl := diffs_length (List.insertionSort (· ≤ ·) l)
      rw [h] at hl
      simp [List.length_insertionSort] at hl
      omega
    by_cases hd : (diffs (List.insertionSort (· ≤ ·) l)).dedup.length = 1
    · have heq : check_interval_regularity l = .ok () := by
        unfold check_interval_regularity
        rw [if_neg hlen]
        simp only [if_pos hd]
      rw [heq]
      constructor
      · intro h
        exact absurd h (by simp)
      · rintro ⟨-, hna⟩
        exact absurd ((dedup_length_one_iff _).mp hd).2 hna
    · have heq : check_interval_regularity l = .error .irregularInterval := by
        unfold check_interval_regularity
        rw [if_neg hlen]
        simp only [if_neg hd]
      rw [heq]
      constructor
      · intro _
        exact ⟨hlen2, fun hall => hd ((dedup_length_one_iff _).mpr ⟨hne, hall⟩)⟩
      · intro _
        rfl

/-- C4: `find_closest_start_time` searches the window
`[time - sector_cadence, time + sector_cadence]` and returns a discovered
start time minimizing the absolute distance to the target; an empty window
fails with the no-data error. -/
theorem c4_closest_start_time (files : List FileRec) (sector : String) (t dt : Int)
    (hdt : get_acquisition_max_timedelta sector = .ok dt) :
    (sortedKeys files (t - dt) (t + dt) = [] →
      find_closest_start_time files t dt = .error .noDataAround) ∧
    ∀ r, find_closest_start_time files t dt = .ok r →
      r ∈ sortedKeys files (t - dt) (t + dt) ∧
      ∀ k ∈ sortedKeys files (t - dt) (t + dt), |r - t| ≤ |k - t| := by
  constructor
  · intro h
    unfold find_closest_start_time
    rw [h]
  · intro r hr
    unfold find_closest_start_time at hr
    cases hks : sortedKeys files (t - dt) (t + dt) with
    | nil =>
      rw [hks] at hr
      exact absurd hr (by simp)
    | cons k ks =>
      rw [hks] at hr
      simp only [Except.ok.injEq] at hr
      subst hr
      exact ⟨argminAbsAux_mem t k ks, fun x hx => argminAbsAux_le t k ks x hx⟩

/-- Witness for C4: one FLDK file spanning [10:00, 10:10] (in minutes),
target 10:05, FLDK cadence discharged from the cadence table. -/
theorem c4_closest_start_time_witness :
    (sortedKeys [⟨600, 610, none, none⟩] (605 - 600) (605 + 600) = [] →
      find_closest_start_time [⟨600, 610, none, none⟩] 605 600 = .error .noDataAround) ∧
    ∀ r, find_closest_start_time [⟨600, 610, none, none⟩] 605 600 = .ok r →
      r ∈ sortedKeys [⟨600, 610, none, none⟩] (605 - 600) (605 + 600) ∧
      ∀ k ∈ sortedKeys [⟨600, 610, none, none⟩] (605 - 600) (605 + 600),
        |r - 605| ≤ |k - 605| :=
  c4_closest_start_time [⟨600, 610, none, none⟩] "FLDK" 605 600 rfl

/-- C10: among equidistant discovered start times the earlier one is
returned — the keys are ascending and `np.argmin` keeps the first
minimizer. -/
theorem c10_closest_tie_earliest (files : List FileRec) (t dt r : Int)
    (hr : find_closest_start_time files t dt = .ok r) :
    ∀ k ∈ sortedKeys files (t - dt) (t + dt), |k - t| = |r - t| → r ≤ k := by
  unfold find_closest_start_time at hr
  cases hks : sortedKeys files (t - dt) (t + dt) with
  | nil =>
    rw [hks] at hr
    exact absurd hr (by simp)
  | cons k0 ks =>
    rw [hks] at hr
    simp only [Except.ok.injEq] at hr
    subst hr
    have hsort : List.Sorted (· ≤ ·) (k0 :: ks) := by
      rw [← hks]
      exact sortedKeys_sorted files (t - dt) (t + dt)
    intro k hk heq
    exact argminAbsAux_first t k0 ks hsort k hk heq

/-- Witness for C10: files starting 10:00 and 10:10, target 10:05 — both
keys are 5 minutes away, the call returns 10:00, and the theorem bounds it
by the equidistant key 10:10. -/
theorem c10_closest_tie_earliest_witness :
    find_closest_start_time [⟨600, 750, none, none⟩, ⟨610, 760, none, none⟩] 605 600 = .ok 600 ∧
    (610 : Int) ∈ sortedKeys [⟨600, 750, none, none⟩, ⟨610, 760, none, none⟩]
      (605 - 600) (605 + 600) ∧
    (600 : Int) ≤ 610 :=
  ⟨rfl, by decide,
    c10_closest_tie_earliest [⟨600, 750, none, none⟩, ⟨610, 760, none, none⟩] 605 600 600 rfl
      610 (by decide) (by decide)⟩

/-- Extending the scanned text preserves an initial-segment match. -/
theorem leadsWith_append (n hay ext : List Char) (h : leadsWith n hay = true) :
    leadsWith n (hay ++ ext) = true := by
  induction n generalizing hay with
  | nil => rfl
  | cons c cs ih =>
    cases hay with
    | nil => exact absurd h (by simp [leadsWith])
    | cons a as =>
      simp only [leadsWith, Bool.and_eq_true, beq_iff_eq] at h
      simp only [List.cons_append, leadsWith, Bool.and_eq_true, beq_iff_eq]
      exact ⟨h.1, ih as h.2⟩

/-- The empty needle occurs in every text. -/
theorem hasSub_nil_needle (hay : List Char) : hasSub hay [] = true := by
  induction hay with
  | nil => rfl
  | cons c r ih => simp [hasSub, leadsWith, ih]

/-- Extending the scanned text preserves a substring occurrence. -/
theorem hasSub_append (hay ext needle : List Char) (h : hasSub hay needle = true) :
    hasSub (hay ++ ext) needle = true := by
  induction hay with
  | nil =>
    simp only [hasSub, List.isEmpty_iff] at h
    subst h
    simp [hasSub_nil_needle]
  | cons c r ih =>
    simp only [hasSub, Bool.or_eq_true] at h
    rcases h with h | h
    · simp only [List.cons_append, hasSub, Bool.or_eq_true]
      exact Or.inl (by simpa using leadsWith_append needle (c :: r) ext h)
    · simp only [List.cons_append, hasSub, Bool.or_eq_true]
      exact Or.inr (ih h)

/-- Paths in the himawari-8 bucket always infer satellite himawari-8 (the
bucket root itself contains the pattern "himawari8", which is checked
first). -/
theorem infer_satellite_h8_bucket (suf : String) :
    infer_satellite_from_path ("s3://noaa-himawari8/" ++ suf) = .ok "himawari-8" := by
  unfold infer_satellite_from_path
  have h : strHasSub ("s3://noaa-himawari8/" ++ suf) "himawari8" = true := by
    unfold strHasSub
    have hd : ("s3://noaa-himawari8/" ++ suf).data =
        "s3://noaa-himawari8/".data ++ suf.data := by simp
    rw [hd]
    exact hasSub_append _ _ _ (by decide)
  simp [h]

/-- The HTTPS rewrite of one himawari-8 bucket path: the bucket root is
replaced by the public endpoint and the suffix after the root is kept. -/
theorem switch_https_h8 (suf : String) (hsuf : suf.data.head? ≠ some '/') :
    switch_to_https_fpath ("s3://noaa-himawari8/" ++ suf) =
      .ok ("https://noaa-himawari8.s3.amazonaws.com/" ++ suf) := by
  unfold switch_to_https_fpath
  rw [infer_satellite_h8_bucket suf]
  have hd : ("s3://noaa-himawari8/" ++ suf).data =
      ['s', '3', ':', '/', '/', 'n', 'o', 'a', 'a', '-', 'h', 'i', 'm', 'a', 'w', 'a',
       'r', 'i', '8', '/'] ++ suf.data := by simp
  have hseg : dropSeg 3 ("s3://noaa-himawari8/" ++ suf).data = some suf.data := by
    rw [hd]
    simp [dropSeg]
  simp only [hseg]
  have hjoin : pathJoin ("https://noaa-" ++ stripDash "himawari-8" ++ ".s3.amazonaws.com")
      ⟨suf.data⟩ = "https://noaa-himawari8.s3.amazonaws.com/" ++ suf := by
    unfold pathJoin
    rw [if_neg hsuf, if_neg (by decide)]
    rfl
  simp [hjoin]
  rfl

/-- The HTTPS rewrite of one himawari-9 bucket path, given that no
himawari-8 pattern occurs anywhere in the path. -/
theorem switch_https_h9 (suf : String) (hsuf : suf.data.head? ≠ some '/')
    (h8 : ∀ pat ∈ ["himawari8", "himawari-8", "H8", "H08"],
      strHasSub ("s3://noaa-himawari9/" ++ suf) pat = false) :
    switch_to_https_fpath ("s3://noaa-himawari9/" ++ suf) =
      .ok ("https://noaa-himawari9.s3.amazonaws.com/" ++ suf) := by
  unfold switch_to_https_fpath
  have hinf : infer_satellite_from_path ("s3://noaa-himawari9/" ++ suf) = .ok "himawari-9" := by
    unfold infer_satellite_from_path
    have h9 : strHasSub ("s3://noaa-himawari9/" ++ suf) "himawari9" = true := by
      unfold strHasSub
      have hd : ("s3://noaa-himawari9/" ++ suf).data =
          "s3://noaa-himawari9/".data ++ suf.data := by simp
      rw [hd]
      exact hasSub_append _ _ _ (by decide)
    have e1 := h8 "himawari8" (by simp)
    have e2 := h8 "himawari-8" (by simp)
    have e3 := h8 "H8" (by simp)
    have e4 := h8 "H08" (by simp)
    simp [e1, e2, e3, e4, h9]
  rw [hinf]
  have hd : ("s3://noaa-himawari9/" ++ suf).data =
      ['s', '3', ':', '/', '/', 'n', 'o', 'a', 'a', '-', 'h', 'i', 'm', 'a', 'w', 'a',
       'r', 'i', '9', '/'] ++ suf.data := by simp
  have hseg : dropSeg 3 ("s3://noaa-himawari9/" ++ suf).data = some suf.data := by
    rw [hd]
    simp [dropSeg]
  simp only [hseg]
  have hjoin : pathJoin ("https://noaa-" ++ stripDash "himawari-9" ++ ".s3.amazonaws.com")
      ⟨suf.data⟩ = "https://noaa-himawari9.s3.amazonaws.com/" ++ suf := by
    unfold pathJoin
    rw [if_neg hsuf, if_neg (by decide)]
    rfl
  simp [hjoin]
  rfl

/-- HTTPS rewrite of a whole himawari-8 bucket listing. -/
theorem switch_https_fpaths_h8 (sufs : List String)
    (h : ∀ suf ∈ sufs, suf.data.head? ≠ some '/') :
    switch_to_https_fpaths (sufs.map (fun suf => "s3://noaa-himawari8/" ++ suf)) =
      .ok (sufs.map (fun suf => "https://noaa-himawari8.s3.amazonaws.com/" ++ suf)) := by
  induction sufs with
  | nil => rfl
  | cons a as ih =>
    have ha := switch_https_h8 a (h a (List.mem_cons.mpr (Or.inl rfl)))
    have has := ih (fun suf hs => h suf (List.mem_cons.mpr (Or.inr hs)))
    simp only [switch_to_https_fpaths, List.map_cons, List.mapM_cons] at has ⊢
    rw [ha, has]
    rfl

/-- C9: connection-type `"bucket"` is an identity transform; `"https"`
replaces the bucket root with the corresponding public HTTPS endpoint,
preserving the path suffix after the bucket root; `"nc_bytes"` is the https
form with the `"#mode=bytes"` marker appended; and for the local-filesystem
protocol (or no protocol) the connection type is forced to `none` and the
paths are returned unchanged. -/
theorem c9_connection_modes :
    (∀ fpaths : List String,
      set_connection_type fpaths (some "s3") (some "bucket") = .ok fpaths) ∧
    (∀ (fpaths : List String) (ct : Option String),
      set_connection_type fpaths none ct = .ok fpaths) ∧
    (∀ ct : Option String,
      check_connection_type ct (some "file") = .ok none ∧
      check_connection_type ct (some "local") = .ok none) ∧
    (∀ (fpaths : List String) (ct : Option String),
      set_connection_type fpaths (some "file") ct = .ok fpaths) ∧
    (∀ sufs : List String, (∀ suf ∈ sufs, suf.data.head? ≠ some '/') →
      set_connection_type (sufs.map (fun suf => "s3://noaa-himawari8/" ++ suf))
          (some "s3") (some "https") =
        .ok (sufs.map (fun suf => "https://noaa-himawari8.s3.amazonaws.com/" ++ suf)) ∧
      set_connection_type (sufs.map (fun suf => "s3://noaa-himawari8/" ++ suf))
          (some "s3") (some "nc_bytes") =
        .ok (sufs.map (fun suf =>
          "https://noaa-himawari8.s3.amazonaws.com/" ++ suf ++ "#mode=bytes"))) ∧
    (∀ suf : String, suf.data.head? ≠ some '/' →
      (∀ pat ∈ ["himawari8", "himawari-8", "H8", "H08"],
        strHasSub ("s3://noaa-himawari9/" ++ suf) pat = false) →
      switch_to_https_fpath ("s3://noaa-himawari9/" ++ suf) =
        .ok ("https://noaa-himawari9.s3.amazonaws.com/" ++ suf)) := by
  refine ⟨fun fpaths => rfl, fun fpaths ct => rfl, fun ct => ⟨rfl, rfl⟩, fun fpaths ct => rfl,
    ?_, fun suf h1 h2 => switch_https_h9 suf h1 h2⟩
  intro sufs h
  have hs := switch_https_fpaths_h8 sufs h
  constructor
  · simp [set_connection_type, hs]
  · simp [set_connection_type, hs, add_nc_bytes, List.map_map]

/-- Witness for C9: one himawari-8 listing rewritten in https and nc_bytes
modes, and one himawari-9 path rewritten in https form. -/
theorem c9_connection_modes_witness :
    (set_connection_type (["AHI-L1b-FLDK/file.bz2"].map (fun suf => "s3://noaa-himawari8/" ++ suf))
        (some "s3") (some "https") =
      .ok (["AHI-L1b-FLDK/file.bz2"].map
        (fun suf => "https://noaa-himawari8.s3.amazonaws.com/" ++ suf)) ∧
    set_connection_type (["AHI-L1b-FLDK/file.bz2"].map (fun suf => "s3://noaa-himawari8/" ++ suf))
        (some "s3") (some "nc_bytes") =
      .ok (["AHI-L1b-FLDK/file.bz2"].map
        (fun suf => "https://noaa-himawari8.s3.amazonaws.com/" ++ suf ++ "#mode=bytes"))) ∧
    switch_to_https_fpath ("s3://noaa-himawari9/" ++ "AHI-L2-FLDK/file.nc") =
      .ok ("https://noaa-himawari9.s3.amazonaws.com/" ++ "AHI-L2-FLDK/file.nc") :=
  ⟨c9_connection_modes.2.2.2.2.1 ["AHI-L1b-FLDK/file.bz2"] (by decide),
   c9_connection_modes.2.2.2.2.2 "AHI-L2-FLDK/file.nc" (by decide) (by decide)⟩

/-- Every grouped key is at most the query window end (the key is the
start time of a kept file, and the filter drops files starting after the
window end). -/
theorem sortedKeys_le (files : List FileRec) (s e x : Int)
    (hx : x ∈ sortedKeys files s e) : x ≤ e := by
  unfold sortedKeys at hx
  rw [List.mem_insertionSort, List.mem_dedup] at hx
  obtain ⟨f, hf, rfl⟩ := List.mem_map.mp hx
  obtain ⟨-, hkeep⟩ := List.mem_filter.mp hf
  simp [filter_file] at hkeep
  omega

/-- The grouped keys are distinct. -/
theorem sortedKeys_nodup (files : List FileRec) (s e : Int) :
    (sortedKeys files s e).Nodup :=
  (List.perm_insertionSort _ _).nodup_iff.mpr (List.nodup_dedup _)

/-- The backward-search candidates are ascending. -/
theorem prevCandidates_sorted (files : List FileRec) (c dt : Int) (N : Nat) :
    List.Sorted (· ≤ ·) (prevCandidates files c dt N) :=
  (sortedKeys_sorted files (prevWindowStart c dt N) c).sublist (List.erase_sublist c _)

/-- The backward-search candidates are distinct. -/
theorem prevCandidates_nodup (files : List FileRec) (c dt : Int) (N : Nat) :
    (prevCandidates files c dt N).Nodup :=
  (sortedKeys_nodup files (prevWindowStart c dt N) c).sublist (List.erase_sublist c _)

/-- Every backward-search candidate is strictly before the resolved start:
the window ends at the resolved start and the start itself was removed. -/
theorem prevCandidates_lt (files : List FileRec) (c dt : Int) (N : Nat) :
    ∀ x ∈ prevCandidates files c dt N, x < c := by
  intro x hx
  unfold prevCandidates at hx
  have h := (sortedKeys_nodup files (prevWindowStart c dt N) c).mem_erase_iff.mp hx
  exact lt_of_le_of_ne (sortedKeys_le files _ c x h.2) h.1

/-- A sorted list passing the regularity check has all consecutive
differences equal. -/
theorem check_regular_ok_all_eq (l : List Int) (hsorted : List.Sorted (· ≤ ·) l)
    (h : check_interval_regularity l = .ok ()) : ∃ d, ∀ x ∈ diffs l, x = d := by
  by_cases hlen : l.length < 2
  · have hnil : diffs l = [] := by
      match l, hlen with
      | [], _ => rfl
      | [a], _ => rfl
    rw [hnil]
    exact ⟨0, by simp⟩
  · unfold check_interval_regularity at h
    rw [if_neg hlen, hsorted.insertionSort_eq] at h
    by_cases hd : (diffs l).dedup.length = 1
    · obtain ⟨hne, hall⟩ := (dedup_length_one_iff _).mp hd
      obtain ⟨x, hx⟩ := List.exists_mem_of_ne_nil _ hne
      exact ⟨x, fun y hy => hall y hy x hx⟩
    · rw [if_neg hd] at h
      exact absurd h (by simp)

/-- Unfolding of `find_previous_times` once the start time has resolved to
itself (`check_consistency` satisfied). -/
theorem find_previous_times_unfold (files : List FileRec) (startT dt : Int) (N : Nat)
    (hres : find_closest_start_time files startT dt = .ok startT) :
    find_previous_times files startT dt N true =
      (if prevCandidates files startT dt N = [] then .error .noDataBetween
       else if (prevCandidates files startT dt N).length < N then
         .error .insufficientTimesteps
       else
         match check_interval_regularity
             ((prevCandidates files startT dt N).drop
               ((prevCandidates files startT dt N).length - N) ++ [startT]) with
         | .error e => .error e
         | .ok _ =>
           .ok ((prevCandidates files startT dt N).drop
             ((prevCandidates files startT dt N).length - N))) := by
  unfold find_previous_times
  rw [hres]
  simp

/-- C3 (amended): with `check_consistency=True`, `include_start_time=False`
and a start time resolving exactly to itself, the backward window is
`sector_cadence × (N+1)` long; a successful call returns exactly `N`
timestamps, all strictly before the resolved start, strictly ascending, and
evenly spaced — constant consecutive difference, also to the resolved start
— though not necessarily spaced at the sector cadence itself; the call
fails with the no-data error when no candidate remains and with the
insufficient-data error when fewer than `N` (but at least one) remain. -/
theorem c3_previous_timesteps (files : List FileRec) (sector : String) (startT dt : Int)
    (N : Nat) (hdt : get_acquisition_max_timedelta sector = .ok dt)
    (hres : find_closest_start_time files startT dt = .ok startT) :
    prevWindowStart startT dt N = startT - dt * (N + 1) ∧
    (∀ l, find_previous_times files startT dt N true = .ok l →
      l.length = N ∧ (∀ x ∈ l, x < startT) ∧ List.Sorted (· < ·) l ∧
      ∃ d, ∀ x ∈ diffs (l ++ [startT]), x = d) ∧
    (prevCandidates files startT dt N = [] →
      find_previous_times files startT dt N true = .error .noDataBetween) ∧
    (prevCandidates files startT dt N ≠ [] →
      (prevCandidates files startT dt N).length < N →
      find_previous_times files startT dt N true = .error .insufficientTimesteps) := by
  have hunf := find_previous_times_unfold files startT dt N hres
  refine ⟨rfl, ?_, ?_, ?_⟩
  · intro l hl
    rw [hunf] at hl
    by_cases h1 : prevCandidates files startT dt N = []
    · rw [if_pos h1] at hl
      exact absurd hl (by simp)
    · rw [if_neg h1] at hl
      by_cases h2 : (prevCandidates files startT dt N).length < N
      · rw [if_pos h2] at hl
        exact absurd hl (by simp)
      · rw [if_neg h2] at hl
        cases hreg : check_interval_regularity
            ((prevCandidates files startT dt N).drop
              ((prevCandidates files startT dt N).length - N) ++ [startT]) with
        | error e =>
          rw [hreg] at hl
          exact absurd hl (by simp)
        | ok u =>
          cases u
          rw [hreg] at hl
          simp only [Except.ok.injEq] at hl
          subst hl
          have hsub : List.Sublist
              ((prevCandidates files startT dt N).drop
                ((prevCandidates files startT dt N).length - N))
              (prevCandidates files startT dt N) := List.drop_sublist _ _
          have hsorted := (prevCandidates_sorted files startT dt N).sublist hsub
          have hnodup := (prevCandidates_nodup files startT dt N).sublist hsub
          have hlt : ∀ x ∈ (prevCandidates files startT dt N).drop
              ((prevCandidates files startT dt N).length - N), x < startT :=
            fun x hx => prevCandidates_lt files startT dt N x (hsub.subset hx)
          refine ⟨?_, hlt, ?_, ?_⟩
          · rw [List.length_drop]
            omega
          · exact (hsorted.and hnodup).imp (fun h => lt_of_le_of_ne h.1 h.2)
          · refine check_regular_ok_all_eq _ ?_ hreg
            exact List.pairwise_append.mpr ⟨hsorted, List.pairwise_singleton _ _,
              fun a ha b hb => by
                rw [List.mem_singleton] at hb
                subst hb
                exact le_of_lt (hlt a ha)⟩
  · intro h1
    rw [hunf, if_pos h1]
  · intro h1 h2
    rw [hunf, if_neg h1, if_pos h2]

/-- Four Japan-cadence files (150 s apart, each 150 s long), the last
starting at 1000. -/
def prevFilesRegular : List FileRec :=
  [⟨550, 700, none, none⟩, ⟨700, 850, none, none⟩, ⟨850, 1000, none, none⟩,
   ⟨1000, 1150, none, none⟩]

/-- Four files spaced at half the Japan cadence (75 s apart), the last
starting at 1000. -/
def prevFilesHalfStep : List FileRec :=
  [⟨775, 925, none, none⟩, ⟨850, 1000, none, none⟩, ⟨925, 1075, none, none⟩,
   ⟨1000, 1150, none, none⟩]

/-- Witness for C3: three previous timesteps from 1000 over the regular
Japan-cadence files. -/
theorem c3_previous_timesteps_witness :
    prevWindowStart 1000 150 3 = 1000 - 150 * (3 + 1) ∧
    (∀ l, find_previous_times prevFilesRegular 1000 150 3 true = .ok l →
      l.length = 3 ∧ (∀ x ∈ l, x < 1000) ∧ List.Sorted (· < ·) l ∧
      ∃ d, ∀ x ∈ diffs (l ++ [1000]), x = d) ∧
    (prevCandidates prevFilesRegular 1000 150 3 = [] →
      find_previous_times prevFilesRegular 1000 150 3 true = .error .noDataBetween) ∧
    (prevCandidates prevFilesRegular 1000 150 3 ≠ [] →
      (prevCandidates prevFilesRegular 1000 150 3).length < 3 →
      find_previous_times prevFilesRegular 1000 150 3 true = .error .insufficientTimesteps) :=
  c3_previous_timesteps prevFilesRegular "Japan" 1000 150 3 rfl rfl

/-- Counterexample for C3 as stated: over files spaced at half the Japan
cadence the call succeeds with consistency checks on, yet the returned
timesteps are 75 s apart, not at the 150 s sector cadence. -/
theorem c3_previous_timesteps_counterexample :
    find_previous_times prevFilesHalfStep 1000 150 3 true = .ok [775, 850, 925] ∧
    get_acquisition_max_timedelta "Japan" = .ok 150 ∧
    ¬ ∀ x ∈ diffs ([775, 850, 925] ++ [(1000 : Int)]), x = 150 :=
  ⟨rfl, rfl, by decide⟩

end Himawari
